import Mathlib

/-!
Shallow embedding of `src/a2c_policy.py` (an A2C actor-critic policy over a
TensorFlow 1.x computation graph) and proofs of the specification claims.

The embedding has three layers, each translated from the source:
  * numeric semantics over `ℝ` for the tensors the claims mention
    (dense layers, batch normalisation at inference, softplus standard
    deviation, tanh squashing, the categorical / diagonal-Gaussian
    distribution operations, global-norm gradient clipping, and the loss
    composition of the `loss` name scope);
  * a graph/effect model of the TensorFlow session: which graph nodes each
    facade operation (`actor`, `critic`, `step`, `train`, `summarize`,
    `reset`) fetches, which variable classes each node writes, and how a
    `sess.run` call mutates the variable state through the transitive
    dependency closure of its fetches;
  * the feed dictionaries each facade operation builds (`is_training`
    flag, and the substitution `adv := returns - values`, `val := returns`
    performed by `train`).
-/

namespace A2C

noncomputable section

/-! ## Elementary numeric operations used by the network -/

/-- The `tf.nn.relu` activation. -/
def relu (x : ℝ) : ℝ := max x 0

/-- The `tf.nn.softplus` function. -/
def softplus (x : ℝ) : ℝ := Real.log (1 + Real.exp x)

/-- Semantics of `tf.reduce_mean` over a 1-D tensor. -/
def meanR (xs : List ℝ) : ℝ := xs.sum / (xs.length : ℝ)

/-- Dot product of two 1-D tensors (the contraction inside a dense layer). -/
def dot (w x : List ℝ) : ℝ := (List.zipWith (fun a b => a * b) w x).sum

/-- Parameters of one `tf.layers.dense` layer: a kernel row per output unit
plus a bias per output unit. -/
structure DenseP where
  W : List (List ℝ)
  b : List ℝ

/-- Semantics of `tf.layers.dense(inputs=x, activation=act)`: each output unit applies the
activation to its kernel-row dot product plus bias. -/
def denseLayer (p : DenseP) (act : ℝ → ℝ) (x : List ℝ) : List ℝ :=
  List.zipWith (fun w bi => act (dot w x + bi)) p.W p.b

/-! ## Gradient clipping (`_clip_by_global_norm`, source lines 365-368) -/

/-- Global L2 norm of the flattened gradient list, as computed by
`tf.global_norm`. -/
def globalNorm (gs : List ℝ) : ℝ := Real.sqrt ((gs.map (fun g => g ^ 2)).sum)

/-- The clip threshold hard-wired by `_clip_by_global_norm`'s default
argument `norm=0.5`. -/
def clipThreshold : ℝ := 0.5

/-- Semantics of `tf.clip_by_global_norm(grads, norm)`: every gradient is scaled by
`norm / max(global_norm, norm)`, so the list is left unchanged when the
global norm is below the threshold and is rescaled onto the threshold
sphere otherwise. -/
def clipByGlobalNorm (gs : List ℝ) : List ℝ :=
  gs.map (fun g => g * (clipThreshold / max (globalNorm gs) clipThreshold))

/-- The gradients handed to `optimizer.apply_gradients` in the
`train_network` scope: `compute_gradients` output passed through
`_clip_by_global_norm` (source lines 137-138). -/
def appliedGradients (rawGrads : List ℝ) : List ℝ := clipByGlobalNorm rawGrads

/-! ## Continuous head: standard deviation and bounded sampling -/

/-- The `act_std_dev` tensor (source lines 67-70): the learned raw parameter vector
passed through `tf.nn.softplus` and shifted by `1e-4`. -/
def actStdDev (raw : List ℝ) : List ℝ :=
  raw.map (fun x => softplus x + 1e-4)

/-- The function `_generate_bounded_continuous_sample_action` (source lines 272-278):
the Gaussian draw is squashed elementwise by `tf.nn.tanh` and then every
dimension is rescaled with the scalar bounds `ac_space.high[0]` and
`ac_space.low[0]` of the first dimension. -/
def boundedContinuousSample (low high : List ℝ) (gaussDraw : List ℝ) : List ℝ :=
  gaussDraw.map (fun g =>
    Real.tanh g * (high.headI - low.headI) * 0.5 + (high.headI + low.headI) * 0.5)

/-! ## Distribution operations

Semantics of the two distribution objects the policy builds:
`tf.distributions.Categorical(logits)` and
`tf.contrib.distributions.MultivariateNormalDiag(loc, scale_diag)`. -/

/-- Softmax probabilities of a logit vector (the categorical distribution the
`Categorical` object represents). -/
def softmaxProbs (logits : List ℝ) : List ℝ :=
  logits.map (fun l => Real.exp l / (logits.map Real.exp).sum)

/-- Inverse-CDF sampling from a probability vector with one uniform draw:
walk the cumulative distribution and return the first bucket whose
cumulative mass exceeds the draw (the final bucket absorbs any remainder).
This is sampling directly from the categorical distribution, the semantics
of `Categorical.sample()`. -/
def invCDF : List ℝ → ℝ → ℕ
  | [], _ => 0
  | [_], _ => 0
  | p :: q :: ps, u => if u < p then 0 else invCDF (q :: ps) (u - p) + 1

/-- Semantics of `tf.distributions.Categorical(logits).sample()` given the uniform draw
`u`: direct sampling from the categorical distribution over
`softmax(logits)`. -/
def categoricalSample (logits : List ℝ) (u : ℝ) : ℕ :=
  invCDF (softmaxProbs logits) u

/-- Semantics of `Categorical.log_prob(k)` from the logits. -/
def categoricalLogProb (logits : List ℝ) (k : ℕ) : ℝ :=
  logits.getD k 0 - Real.log ((logits.map Real.exp).sum)

/-- Semantics of `Categorical.entropy()` from the logits. -/
def categoricalEntropy (logits : List ℝ) : ℝ :=
  -(List.zipWith (fun p l => p * (l - Real.log ((logits.map Real.exp).sum)))
      (softmaxProbs logits) logits).sum

/-- First index of the maximal element (ties broken towards the earlier
index, as `tf.argmax` does); auxiliary recursion carrying the running best
index and value. -/
def argmaxAux : List ℝ → ℕ → ℕ → ℝ → ℕ
  | [], _, bi, _ => bi
  | x :: xs, i, bi, bv => if bv < x then argmaxAux xs (i + 1) i x else argmaxAux xs (i + 1) bi bv

/-- First index of the maximal element of a nonempty list. -/
def argmaxIdx : List ℝ → ℕ
  | [] => 0
  | x :: xs => argmaxAux xs 1 0 x

/-- Gumbel-max sampling as the specification describes it: perturb each
logit with numerically-stable Gumbel noise `-log(-log(u_i))` built from an
independent uniform draw per logit, then take the arg-max. -/
def gumbelMaxSample (logits : List ℝ) (noise : List ℝ) : ℕ :=
  argmaxIdx (List.zipWith (fun l u => l + -Real.log (-Real.log u)) logits noise)

/-- The discrete `generate_sample_action` scope (source lines 74-77): build
`Categorical(logits)` and call its `sample()` directly, consuming one
uniform draw from the noise source. -/
def generateSampleActionDiscrete (logits : List ℝ) (noise : List ℝ) : ℕ :=
  categoricalSample logits noise.headI

/-- Semantics of `MultivariateNormalDiag(loc, scale_diag).sample()` under the standard
reparameterisation: one standard-normal draw per dimension, scaled and
shifted. -/
def mvnDiagSample (loc scale noise : List ℝ) : List ℝ :=
  List.zipWith (fun ms n => ms.1 + ms.2 * n) (loc.zip scale) noise

/-- Semantics of `MultivariateNormalDiag(loc, scale_diag).log_prob(x)`: sum over the
diagonal of the per-dimension standardised squared deviation and log scale,
plus the dimension-dependent normalising constant. -/
def mvnDiagLogProb (loc scale x : List ℝ) : ℝ :=
  ((x.zip (loc.zip scale)).map
      (fun t => -(((t.1 - t.2.1) / t.2.2) ^ 2) / 2 - Real.log t.2.2)).sum
    - (loc.length : ℝ) * Real.log (2 * Real.pi) / 2

/-- Semantics of `MultivariateNormalDiag(loc, scale_diag).entropy()`. -/
def mvnDiagEntropy (scale : List ℝ) : ℝ :=
  (scale.map Real.log).sum + (scale.length : ℝ) * (1 + Real.log (2 * Real.pi)) / 2

/-- The continuous `generate_sample_action` scope (source lines 78-83):
draw from the diagonal Gaussian, then squash and rescale through
`_generate_bounded_continuous_sample_action`. -/
def generateSampleActionContinuous (loc scale : List ℝ) (low high : List ℝ)
    (noise : List ℝ) : List ℝ :=
  boundedContinuousSample low high (mvnDiagSample loc scale noise)

/-! ## Reference densities written from the specification text

These two definitions are NOT translated from the source; they transcribe
the spec's description of the pre-squash Gaussian log-density and of the
tanh-Jacobian-corrected log-density, to be compared with the source's
`log_prob`. -/

/-- The log-density of the pre-squash diagonal Gaussian, written as the
spec states it: quadratic term per dimension, minus the log scales, minus
the normalising constant. -/
def preSquashGaussianLogPdf (loc scale x : List ℝ) : ℝ :=
  ((x.zip (loc.zip scale)).map
      (fun t => -((t.1 - t.2.1) ^ 2) / (2 * t.2.2 ^ 2))).sum
    - (scale.map Real.log).sum - (loc.length : ℝ) * Real.log (2 * Real.pi) / 2

/-- The entropy of the pre-squash diagonal Gaussian, written independently
from the standard per-dimension formula. -/
def preSquashGaussianEntropy (scale : List ℝ) : ℝ :=
  (scale.map (fun s => 1 / 2 + Real.log (2 * Real.pi) / 2 + Real.log s)).sum

/-- The tanh-squashing-corrected log-density the spec says is NOT applied:
the pre-squash log-density minus the log-Jacobian `log(1 - tanh(g)^2)` of
the squashing, per dimension of the pre-squash draw `g`. -/
def squashCorrectedLogPdf (loc scale g : List ℝ) : ℝ :=
  preSquashGaussianLogPdf loc scale g
    - (g.map (fun gi => Real.log (1 - Real.tanh gi ^ 2))).sum

/-! ## Trunk network and heads (inference mode) -/

/-- Learned scale/offset parameters of one batch-normalisation layer. -/
structure BnP where
  gamma : List ℝ
  beta : List ℝ

/-- Moving statistics of one batch-normalisation layer (variables updated
only by the update ops, read during inference). -/
structure BnStats where
  mean : List ℝ
  variance : List ℝ

/-- Semantics of `tf.layers.batch_normalization` at inference (`training=False`):
normalise with the moving statistics (epsilon-stabilised), then apply the
learned scale and offset. -/
def bnInfer (p : BnP) (st : BnStats) (x : List ℝ) : List ℝ :=
  (List.range x.length).map (fun i =>
    p.gamma.getD i 1 * ((x.getD i 0 - st.mean.getD i 0)
      / Real.sqrt (st.variance.getD i 0 + 1e-3)) + p.beta.getD i 0)

/-- Learnable weights of the two-layer MLP trunk built by `_build_mlp`
(source lines 281-299): two dense layers, each followed by a
batch-normalisation layer. -/
structure TrunkW where
  d1 : DenseP
  bn1 : BnP
  d2 : DenseP
  bn2 : BnP

/-- Moving statistics of the trunk's two batch-normalisation layers. -/
structure TrunkStats where
  s1 : BnStats
  s2 : BnStats

/-- The trunk `_build_mlp(obs, is_training, activation=tanh, size=64)` at inference:
dense layer with tanh activation, batch normalisation, dense layer with
tanh activation, batch normalisation (source lines 48-49 select
`activation=tf.nn.tanh`). -/
def trunkMlp (w : TrunkW) (st : TrunkStats) (obs : List ℝ) : List ℝ :=
  bnInfer w.bn2 st.s2 (denseLayer w.d2 Real.tanh (bnInfer w.bn1 st.s1 (denseLayer w.d1 Real.tanh obs)))

/-- The discrete actor-head projection (source lines 52-57):
`tf.layers.dense(inputs=hidden, units=act_dim, activation=tf.nn.relu)`. -/
def actLogitsHead (p : DenseP) (hidden : List ℝ) : List ℝ :=
  denseLayer p relu hidden

/-- All learnable weights of the discrete-variant policy network. -/
structure DiscreteW where
  trunk : TrunkW
  head : DenseP
  critic : DenseP

/-- The `act_logits` tensor of the discrete variant: trunk at inference
followed by the relu-activated head projection. -/
def actLogits (w : DiscreteW) (st : TrunkStats) (obs : List ℝ) : List ℝ :=
  actLogitsHead w.head (trunkMlp w.trunk st obs)

/-- The `sample_act` tensor of the discrete variant evaluated on one
observation: `Categorical(act_logits).sample()`. -/
def sampleActDiscrete (w : DiscreteW) (st : TrunkStats) (obs : List ℝ) (u : ℝ) : ℕ :=
  generateSampleActionDiscrete (actLogits w st obs) [u]

/-- The `critic_pred` tensor (source lines 88-90): a one-unit dense layer
with no activation on the shared hidden representation. -/
def criticPredOf (p : DenseP) (hidden : List ℝ) : ℝ :=
  (denseLayer p id hidden).headI

/-- All learnable weights of the continuous-variant policy network:
the trunk, the mean head (source lines 60-63), the raw standard-deviation
variable (source lines 67-69), and the critic head. -/
structure ContinuousW where
  trunk : TrunkW
  meanHead : DenseP
  rawStdDev : List ℝ
  critic : DenseP

/-- The `act_mean` tensor: a linear dense projection of the hidden
representation (`activation=None`). -/
def actMean (w : ContinuousW) (st : TrunkStats) (obs : List ℝ) : List ℝ :=
  denseLayer w.meanHead id (trunkMlp w.trunk st obs)

/-- The (post-softplus) `act_std_dev` tensor of the continuous variant. -/
def contStdDev (w : ContinuousW) : List ℝ :=
  actStdDev w.rawStdDev

/-- The `log_prob` tensor of the continuous variant evaluated at one fed
action (source line 107): `dist.log_prob(act)` on the diagonal Gaussian. -/
def logProbNodeCont (w : ContinuousW) (st : TrunkStats) (obs : List ℝ) (act : List ℝ) : ℝ :=
  mvnDiagLogProb (actMean w st obs) (contStdDev w) act

/-- The per-sample `dist.entropy()` tensor of the continuous variant
(source line 111). -/
def entropyNodeCont (w : ContinuousW) : ℝ :=
  mvnDiagEntropy (contStdDev w)

/-! ## Loss composition (`loss` scope, source lines 114-132) -/

/-- Default coefficients from the `__init__` signature (source lines
18-19): `reg_coeff=1e-6`, `ent_coeff=0.01`. -/
def defaultEntCoeff : ℝ := 0.01

/-- Default regularisation coefficient `reg_coeff=1e-6`. -/
def defaultRegCoeff : ℝ := 1e-6

/-- The per-batch tensors entering the `loss` scope, evaluated on one fed
batch: per-sample `log_prob`, per-sample `dist.entropy()`, per-sample
`critic_pred`, and the collected L2 kernel penalties. -/
structure LossTensors where
  logProb : List ℝ
  entPerSample : List ℝ
  criticPred : List ℝ
  regPenalties : List ℝ

/-- The tensor `actor_pg_loss = tf.reduce_mean(-log_prob * normalised_adv)` (source
line 116; advantage normalisation is commented out, so `normalised_adv` is
the fed advantage itself, line 42). -/
def actorPgLoss (logProb adv : List ℝ) : ℝ :=
  meanR (List.zipWith (fun lp a => -lp * a) logProb adv)

/-- The tensor `ent = tf.reduce_mean(dist.entropy())` (source line 111). -/
def entMean (entPerSample : List ℝ) : ℝ := meanR entPerSample

/-- The tensor `actor_expl_loss = ent * ent_coeff` (source line 119). -/
def actorExplLoss (entPerSample : List ℝ) (entCoeff : ℝ) : ℝ :=
  entMean entPerSample * entCoeff

/-- The tensor `critic_loss = tf.reduce_mean(tf.square(critic_pred - normalised_val))/2`
(source lines 125-126; value normalisation is commented out, line 41). -/
def criticLossOf (pred valFeed : List ℝ) : ℝ :=
  meanR (List.zipWith (fun p v => (p - v) ^ 2) pred valFeed) / 2

/-- The tensor `reg_loss = tf.losses.get_regularization_loss() * reg_coeff` (source
line 129): the sum of the collected L2 penalties times the coefficient. -/
def regLossOf (penalties : List ℝ) (regCoeff : ℝ) : ℝ :=
  penalties.sum * regCoeff

/-- The tensor `total_loss = (actor_pg_loss - actor_expl_loss) + 0.5 * critic_loss
+ reg_loss` (source lines 122 and 132), as a function of the fed `adv` and
`val` placeholders. -/
def graphTotalLoss (t : LossTensors) (advFeed valFeed : List ℝ)
    (entCoeff regCoeff : ℝ) : ℝ :=
  (actorPgLoss t.logProb advFeed - actorExplLoss t.entPerSample entCoeff)
    + 0.5 * criticLossOf t.criticPred valFeed + regLossOf t.regPenalties regCoeff

/-- The advantage vector `train` computes before feeding (source line 218):
`advantages = returns - values`. -/
def trainAdvantages (returns values : List ℝ) : List ℝ :=
  List.zipWith (fun r v => r - v) returns values

/-- The total loss evaluated by `train` (source lines 220-231): the graph
loss with the feed substitution `adv := returns - values`, `val := returns`. -/
def trainTotalLoss (t : LossTensors) (returns values : List ℝ)
    (entCoeff regCoeff : ℝ) : ℝ :=
  graphTotalLoss t (trainAdvantages returns values) returns entCoeff regCoeff

end

/-! ## Graph and session model

The nodes of the TensorFlow graph the constructor builds, their
dependencies (data plus control), which variable classes each node writes,
and the effect of a `sess.run(fetches, feed_dict)` call on the variable
state: every node in the transitive dependency closure of the fetches
executes, and each executed node applies its writes. -/

/-- The three classes of variables making up PolicyParameters: network
weights, batch-normalisation moving statistics, and the global step
counter. -/
inductive VarClass
  | weights
  | movingStats
  | globalStep
  deriving DecidableEq

/-- The graph nodes relevant to the facade operations (one per tensor or
op of the source's name scopes). -/
inductive NodeId
  | obsPh | advPh | valPh | actPh | isTrainingPh
  | dense1 | bn1 | bn1Update | dense2 | bn2 | bn2Update
  | actHeadN | sampleActN | criticPredN
  | logProbN | entropyN
  | pgLossN | explLossN | criticLossN | regLossN | totalLossN
  | gradsN | clippedGradsN | applyGradsN
  | summariesN | initOpN
  deriving DecidableEq

/-- Dependencies of each node, wired exactly as the constructor wires the
graph: the trunk reads the observation placeholder and the training flag;
the heads read the trunk output; the losses read the heads and the `adv`
and `val` placeholders; `compute_gradients` reads the total loss;
`_clip_by_global_norm` reads the raw gradients; `apply_gradients` reads
the clipped gradients and, through
`_train_with_batch_norm_update`'s `tf.control_dependencies(update_ops)`
(source lines 356-362), the batch-normalisation update ops; the merged
summaries read the summarised tensors; the initialisation op reads
nothing. -/
def deps : NodeId → List NodeId
  | .obsPh => [] | .advPh => [] | .valPh => [] | .actPh => [] | .isTrainingPh => []
  | .dense1 => [.obsPh]
  | .bn1 => [.dense1, .isTrainingPh]
  | .bn1Update => [.dense1, .isTrainingPh]
  | .dense2 => [.bn1]
  | .bn2 => [.dense2, .isTrainingPh]
  | .bn2Update => [.dense2, .isTrainingPh]
  | .actHeadN => [.bn2]
  | .sampleActN => [.actHeadN]
  | .criticPredN => [.bn2]
  | .logProbN => [.actHeadN, .actPh]
  | .entropyN => [.actHeadN]
  | .pgLossN => [.logProbN, .advPh]
  | .explLossN => [.entropyN]
  | .criticLossN => [.criticPredN, .valPh]
  | .regLossN => []
  | .totalLossN => [.pgLossN, .explLossN, .criticLossN, .regLossN]
  | .gradsN => [.totalLossN]
  | .clippedGradsN => [.gradsN]
  | .applyGradsN => [.clippedGradsN, .bn1Update, .bn2Update]
  | .summariesN => [.obsPh, .advPh, .valPh, .actPh, .dense1, .bn1, .dense2, .bn2,
      .actHeadN, .sampleActN, .criticPredN, .logProbN, .entropyN,
      .pgLossN, .explLossN, .criticLossN, .regLossN, .totalLossN]
  | .initOpN => []

/-- One expansion step of the dependency closure. -/
def depsStep (front : List NodeId) : List NodeId :=
  (front ++ front.flatMap deps).dedup

/-- Fuel-bounded transitive closure (the graph has depth well under the
fuel). -/
def closureN : ℕ → List NodeId → List NodeId
  | 0, front => front
  | n + 1, front => closureN n (depsStep front)

/-- The set of nodes a `sess.run` with the given fetches executes: the
transitive dependency closure of the fetch list. -/
def executedNodes (fetch : List NodeId) : List NodeId :=
  closureN 24 fetch

/-- The variable state of the session: PolicyParameters split into the
three variable classes. The weight and statistic carriers are abstract
type parameters so the frame statements hold for any representation. -/
structure TFVars (W S : Type) where
  weights : W
  movingStats : S
  globalStep : ℕ

/-- The values an executing update op would assign on this particular run
(whatever RMSProp and the moving-average updates compute for the fed
batch). -/
structure UpdateVals (W S : Type) where
  newWeights : W
  newStats : S

/-- The state effect of executing one node: the batch-normalisation update
ops write the moving statistics; `apply_gradients` writes the weights and
increments the global step (it is passed
`global_step=tf.train.get_or_create_global_step()`, source lines 359-361);
the initialisation op of `reset` rewrites everything and zeroes the step;
every other node is a pure computation. -/
def nodeEffect {W S : Type} (u : UpdateVals W S) (s : TFVars W S) : NodeId → TFVars W S
  | .bn1Update => { s with movingStats := u.newStats }
  | .bn2Update => { s with movingStats := u.newStats }
  | .applyGradsN => { s with weights := u.newWeights, globalStep := s.globalStep + 1 }
  | .initOpN => { weights := u.newWeights, movingStats := u.newStats, globalStep := 0 }
  | _ => s

/-- Semantics of `sess.run(fetch, feed_dict)`: execute every node in the dependency
closure of the fetches, folding each executed node's state effect. -/
def sessionRun {W S : Type} (fetch : List NodeId) (u : UpdateVals W S)
    (s : TFVars W S) : TFVars W S :=
  (executedNodes fetch).foldl (fun st n => nodeEffect u st n) s

/-- The facade operation `actor` fetches `sample_act` (source line 159). -/
def actorFetches : List NodeId := [.sampleActN]

/-- The facade operation `critic` fetches `critic_pred` (source line 178). -/
def criticFetches : List NodeId := [.criticPredN]

/-- The facade operation `step` fetches `sample_act` and `critic_pred` (source lines 197-198). -/
def stepFetches : List NodeId := [.sampleActN, .criticPredN]

/-- The facade operation `train` fetches `train_op` (the gated `apply_gradients` op) and the
five loss/entropy scalars (source lines 228-231). -/
def trainFetches : List NodeId :=
  [.applyGradsN, .pgLossN, .criticLossN, .explLossN, .regLossN, .entropyN]

/-- The facade operation `summarize` fetches `train_op` and the merged summaries (source line
254). -/
def summarizeFetches : List NodeId := [.applyGradsN, .summariesN]

/-- The facade operation `reset` runs `tf.global_variables_initializer()` (source line 260). -/
def resetFetches : List NodeId := [.initOpN]

/-- The `is_training` value fed by `actor`. -/
def actorFeedIsTraining : Bool := false

/-- The `is_training` value fed by `critic`. -/
def criticFeedIsTraining : Bool := false

/-- The `is_training` value fed by `step`. -/
def stepFeedIsTraining : Bool := false

/-- The `is_training` value fed by `summarize`. -/
def summarizeFeedIsTraining : Bool := false

/-- The `is_training` value fed by `train`. -/
def trainFeedIsTraining : Bool := true

noncomputable section

/-- One `actor(observation_batch)` call of the discrete variant: the
session executes the closure of `sample_act` (mutating nothing, so the
update values it would use are irrelevant and we pass the current ones),
and the returned actions are the per-observation samples computed from the
CURRENT weights and moving statistics and the fed sampling noise. -/
def actorCall (s : TFVars DiscreteW TrunkStats) (obsBatch : List (List ℝ))
    (noise : List ℝ) : TFVars DiscreteW TrunkStats × List ℕ :=
  (sessionRun actorFetches ⟨s.weights, s.movingStats⟩ s,
   List.zipWith (fun o ui => sampleActDiscrete s.weights s.movingStats o ui) obsBatch noise)

/-- A `reset()` call: run the initialisation op, whose fresh values are
the initial weights and statistics. -/
def resetCall (w0 : DiscreteW) (st0 : TrunkStats)
    (s : TFVars DiscreteW TrunkStats) : TFVars DiscreteW TrunkStats :=
  sessionRun resetFetches ⟨w0, st0⟩ s

/-- A concrete one-dimensional continuous-variant weight configuration,
used to evaluate theorems on explicit inputs. -/
def exampleContW : ContinuousW :=
  { trunk := { d1 := ⟨[[1]], [0]⟩, bn1 := ⟨[1], [0]⟩, d2 := ⟨[[1]], [0]⟩, bn2 := ⟨[1], [0]⟩ },
    meanHead := ⟨[[1]], [0]⟩,
    rawStdDev := [0],
    critic := ⟨[[1]], [0]⟩ }

/-- Concrete moving statistics matching `exampleContW`. -/
def exampleStats : TrunkStats :=
  { s1 := ⟨[0], [1]⟩, s2 := ⟨[0], [1]⟩ }

end

/-! ## Helper lemmas -/

set_option maxRecDepth 10000

/-- Fetching `sample_act` executes no write: the dependency closure of the
`actor` fetch list contains no update op. -/
theorem sessionRunActorEq {W S : Type} (u : UpdateVals W S) (s : TFVars W S) :
    sessionRun actorFetches u s = s := rfl

/-- Fetching `critic_pred` executes no write. -/
theorem sessionRunCriticEq {W S : Type} (u : UpdateVals W S) (s : TFVars W S) :
    sessionRun criticFetches u s = s := rfl

/-- Fetching `sample_act` and `critic_pred` together executes no write. -/
theorem sessionRunStepEq {W S : Type} (u : UpdateVals W S) (s : TFVars W S) :
    sessionRun stepFetches u s = s := rfl

/-- Fetching `train_op` executes the gradient application (writing the
weights and incrementing the global step) and the batch-normalisation
update ops (writing the moving statistics). -/
theorem sessionRunTrainEq {W S : Type} (u : UpdateVals W S) (s : TFVars W S) :
    sessionRun trainFetches u s = ⟨u.newWeights, u.newStats, s.globalStep + 1⟩ := rfl

/-- Running `summarize` fetches `train_op` as well, so the same writes execute. -/
theorem sessionRunSummarizeEq {W S : Type} (u : UpdateVals W S) (s : TFVars W S) :
    sessionRun summarizeFetches u s = ⟨u.newWeights, u.newStats, s.globalStep + 1⟩ := rfl

/-- Running `reset` reinitialises every variable and zeroes the global step. -/
theorem sessionRunResetEq {W S : Type} (u : UpdateVals W S) (s : TFVars W S) :
    sessionRun resetFetches u s = ⟨u.newWeights, u.newStats, 0⟩ := rfl

/-- The softplus function is strictly positive everywhere. -/
theorem softplusPos (x : ℝ) : 0 < softplus x :=
  Real.log_pos (by linarith [Real.exp_pos x])

/-- Every entry of the post-softplus standard deviation is strictly
positive. -/
theorem memActStdDevPos {raw : List ℝ} {s : ℝ} (hs : s ∈ actStdDev raw) : 0 < s := by
  rcases List.mem_map.1 hs with ⟨x, _, rfl⟩
  have := softplusPos x
  norm_num
  linarith

/-- The hyperbolic tangent is bounded above by 1. -/
theorem tanhLtOne (x : ℝ) : Real.tanh x < 1 := by
  rw [Real.tanh_eq_sinh_div_cosh, div_lt_one (Real.cosh_pos x)]
  exact Real.sinh_lt_cosh x

/-- The hyperbolic tangent is bounded below by -1. -/
theorem negOneLtTanh (x : ℝ) : -1 < Real.tanh x := by
  rw [Real.tanh_eq_sinh_div_cosh, lt_div_iff₀ (Real.cosh_pos x)]
  have h := Real.sinh_lt_cosh (-x)
  simp only [Real.sinh_neg, Real.cosh_neg] at h
  linarith

/-- Every element produced by a `zipWith` satisfies any property that the
combining function always satisfies. -/
theorem memZipWith {α β γ : Type} {f : α → β → γ} {P : γ → Prop}
    (hf : ∀ a b, P (f a b)) :
    ∀ (l1 : List α) (l2 : List β), ∀ x ∈ List.zipWith f l1 l2, P x
  | [], _, x, hx => by simp at hx
  | _ :: _, [], x, hx => by simp at hx
  | a :: t1, b :: t2, x, hx => by
    rcases List.mem_cons.1 hx with h | h
    · exact h ▸ hf a b
    · exact memZipWith hf t1 t2 x h

/-- Summation distributes over pointwise subtraction of mapped lists. -/
theorem listSumMapSub {α : Type} (l : List α) (f g : α → ℝ) :
    (l.map (fun a => f a - g a)).sum = (l.map f).sum - (l.map g).sum := by
  induction l with
  | nil => simp
  | cons a t ih => simp [ih]; ring

/-- Summing a constant plus a function over a list. -/
theorem listSumMapConstAdd (l : List ℝ) (c : ℝ) (f : ℝ → ℝ) :
    (l.map (fun s => c + f s)).sum = c * (l.length : ℝ) + (l.map f).sum := by
  induction l with
  | nil => simp
  | cons a t ih => simp [ih]; ring

/-- The inverse-CDF walk always lands inside the probability vector. -/
theorem invCDFLtLength : ∀ (ps : List ℝ) (u : ℝ), ps ≠ [] → invCDF ps u < ps.length
  | [], _, h => absurd rfl h
  | [_], _, _ => by simp [invCDF]
  | p :: q :: ps, u, _ => by
    simp only [invCDF]
    split
    · simp
    · have ih := invCDFLtLength (q :: ps) (u - p) (by simp)
      simpa using Nat.succ_lt_succ ih

/-- Projecting the third component out of a three-way zip of equal-length
lists recovers the third list. -/
theorem zip3MapThird :
    ∀ (x loc scale : List ℝ), x.length = scale.length → loc.length = scale.length →
      (x.zip (loc.zip scale)).map (fun t => t.2.2) = scale
  | [], _, [], _, _ => by simp
  | _ :: _, _, [], h1, _ => by simp at h1
  | [], _, _ :: _, h1, _ => by simp at h1
  | _ :: _, [], _ :: _, _, h2 => by simp at h2
  | a :: x, b :: l, c :: s, h1, h2 => by
    simp only [List.zip_cons_cons, List.map_cons]
    rw [zip3MapThird x l s (by simpa using h1) (by simpa using h2)]

/-- Every third component of a three-way zip belongs to the third list. -/
theorem zip3MemThird :
    ∀ (x loc scale : List ℝ) (t : ℝ × ℝ × ℝ), t ∈ x.zip (loc.zip scale) → t.2.2 ∈ scale
  | [], _, _, _, ht => by simp at ht
  | _ :: _, [], _, _, ht => by simp at ht
  | _ :: _, _ :: _, [], _, ht => by simp at ht
  | a :: x, b :: l, c :: s, t, ht => by
    rcases List.mem_cons.1 ht with h | h
    · subst h; exact List.mem_cons_self c s
    · exact List.mem_cons_of_mem c (zip3MemThird x l s t h)

/-! ## Claims -/

/-- C5: for every real configuration of the learned raw standard-deviation
parameter, each per-dimension standard deviation the continuous variant
produces equals `softplus(raw) + 1e-4` and is strictly positive, so no
configuration of the learned parameter yields a non-positive scale. -/
theorem act_std_dev_strictly_positive (raw : List ℝ) (s : ℝ)
    (hs : s ∈ actStdDev raw) : 0 < s :=
  memActStdDevPos hs

theorem act_std_dev_strictly_positive_witness :
    (softplus 0 + 1e-4) ∈ actStdDev [0] ∧ 0 < softplus 0 + 1e-4 :=
  ⟨by simp [actStdDev], act_std_dev_strictly_positive [0] _ (by simp [actStdDev])⟩

/-- C10: in the discrete variant every per-action logit produced by the
actor head projection is non-negative, because the projection applies a
ReLU activation; this holds for every hidden representation fed into the
head, hence on every forward pass. -/
theorem act_logits_nonneg (p : DenseP) (hidden : List ℝ) (x : ℝ)
    (hx : x ∈ actLogitsHead p hidden) : 0 ≤ x := by
  have : ∀ y ∈ List.zipWith (fun w bi => relu (dot w hidden + bi)) p.W p.b, 0 ≤ y :=
    memZipWith (fun a b => le_max_right _ _) p.W p.b
  exact this x hx

theorem act_logits_nonneg_witness :
    relu (dot [1] [2] + 0) ∈ actLogitsHead ⟨[[1]], [0]⟩ [2] ∧
    0 ≤ relu (dot [1] [2] + 0) :=
  ⟨List.mem_singleton.mpr rfl,
   act_logits_nonneg ⟨[[1]], [0]⟩ [2] _ (List.mem_singleton.mpr rfl)⟩

/-- C4: for every input gradient vector (hence for every input batch,
however large the rewards), the gradients handed to the optimisation step
have global L2 norm at most the fixed threshold 0.5, and they are a
uniform positive rescaling of the raw gradients, preserving relative
direction. -/
theorem applied_gradients_clipped (rawGrads : List ℝ) :
    globalNorm (appliedGradients rawGrads) ≤ clipThreshold ∧
    ∃ c : ℝ, 0 < c ∧ appliedGradients rawGrads = rawGrads.map (fun g => g * c) := by
  have hn0 : 0 ≤ globalNorm rawGrads := Real.sqrt_nonneg _
  have hmaxpos : (0 : ℝ) < max (globalNorm rawGrads) clipThreshold :=
    lt_of_lt_of_le (by norm_num [clipThreshold]) (le_max_right _ _)
  have hcpos : 0 < clipThreshold / max (globalNorm rawGrads) clipThreshold :=
    div_pos (by norm_num [clipThreshold]) hmaxpos
  refine ⟨?_, clipThreshold / max (globalNorm rawGrads) clipThreshold, hcpos, rfl⟩
  have hsq : ((rawGrads.map
        (fun g => g * (clipThreshold / max (globalNorm rawGrads) clipThreshold))).map
        (fun g => g ^ 2)).sum
      = (rawGrads.map (fun g => g ^ 2)).sum
          * (clipThreshold / max (globalNorm rawGrads) clipThreshold) ^ 2 := by
    rw [List.map_map]
    have hfun : ((fun g => g ^ 2)
          ∘ fun g => g * (clipThreshold / max (globalNorm rawGrads) clipThreshold))
        = fun g => g ^ 2 * (clipThreshold / max (globalNorm rawGrads) clipThreshold) ^ 2 := by
      funext g
      simp [mul_pow]
    rw [hfun, List.sum_map_mul_right]
  have hS : 0 ≤ (rawGrads.map (fun g => g ^ 2)).sum := by
    apply List.sum_nonneg
    intro y hy
    rcases List.mem_map.1 hy with ⟨g, _, rfl⟩
    positivity
  have hnorm : globalNorm (appliedGradients rawGrads)
      = globalNorm rawGrads * (clipThreshold / max (globalNorm rawGrads) clipThreshold) := by
    rw [appliedGradients, clipByGlobalNorm, globalNorm, hsq, Real.sqrt_mul hS,
      Real.sqrt_sq hcpos.le]
    rfl
  rw [hnorm]
  calc globalNorm rawGrads * (clipThreshold / max (globalNorm rawGrads) clipThreshold)
      ≤ max (globalNorm rawGrads) clipThreshold
          * (clipThreshold / max (globalNorm rawGrads) clipThreshold) :=
        mul_le_mul_of_nonneg_right (le_max_left _ _) hcpos.le
    _ = clipThreshold := by field_simp

/-- C1: for every training batch of equal length N, `train` computes
advantages as `returns - values`, feeds `val := returns`, and the scalar
total loss equals
`(mean(-log_prob * advantage) - mean(entropy) * 0.01)
 + 0.5 * (mean((critic_pred - returns)^2) / 2)
 + reg_coeff * (sum of L2 penalties)`,
with the entropy coefficient defaulting to 0.01. -/
theorem train_total_loss_composition (t : LossTensors) (returns values : List ℝ)
    (N : ℕ) (regCoeff : ℝ)
    (h1 : t.logProb.length = N) (h2 : t.entPerSample.length = N)
    (h3 : t.criticPred.length = N) (h4 : returns.length = N) (h5 : values.length = N) :
    trainTotalLoss t returns values defaultEntCoeff regCoeff =
      (meanR (List.zipWith (fun lp a => -lp * a) t.logProb
          (List.zipWith (fun r v => r - v) returns values))
        - meanR t.entPerSample * 0.01)
      + 0.5 * (meanR (List.zipWith (fun p v => (p - v) ^ 2) t.criticPred returns) / 2)
      + regCoeff * t.regPenalties.sum := by
  simp only [trainTotalLoss, graphTotalLoss, actorPgLoss, actorExplLoss, entMean,
    criticLossOf, regLossOf, trainAdvantages, defaultEntCoeff]
  ring

theorem train_total_loss_composition_witness :
    (([(1 : ℝ), 2] : List ℝ).length = 2 ∧ ([(3 : ℝ), 4] : List ℝ).length = 2) ∧
    trainTotalLoss ⟨[1, 2], [3, 4], [5, 6], [7]⟩ [1, 0] [0, 1] defaultEntCoeff 1 =
      (meanR (List.zipWith (fun lp a => -lp * a) [1, 2]
          (List.zipWith (fun r v => r - v) [1, 0] [0, 1]))
        - meanR [3, 4] * 0.01)
      + 0.5 * (meanR (List.zipWith (fun p v => (p - v) ^ 2) [5, 6] [1, 0]) / 2)
      + 1 * ([(7 : ℝ)] : List ℝ).sum :=
  ⟨⟨rfl, rfl⟩,
   train_total_loss_composition ⟨[1, 2], [3, 4], [5, 6], [7]⟩ [1, 0] [0, 1] 2 1
     rfl rfl rfl rfl rfl⟩

/-- C2 counterexample: with bounds `low = [0, 2]`, `high = [1, 3]` and the
Gaussian draw `[0, 0]`, the sampled action's second component is `0.5`,
outside that dimension's bounds `[2, 3]`: the rescaling does NOT use each
dimension's own bounds, so the claim is false as stated. -/
theorem bounded_sample_not_per_dimension :
    ¬ (∀ i, i < 2 →
        ([0, 2] : List ℝ).getD i 0
            ≤ (boundedContinuousSample [0, 2] [1, 3] [0, 0]).getD i 0 ∧
        (boundedContinuousSample [0, 2] [1, 3] [0, 0]).getD i 0
            ≤ ([1, 3] : List ℝ).getD i 0) := by
  intro h
  have h1 := (h 1 (by norm_num)).1
  simp [boundedContinuousSample, Real.tanh_zero] at h1
  norm_num at h1

/-- C2 amended: the rescaling uses dimension 0's bounds for every
dimension (`scaled = tanh(g) * (high_0 - low_0)/2 + (high_0 + low_0)/2`),
so whenever `low_0 ≤ high_0` every sampled action component lies in
`[low_0, high_0]`. -/
theorem bounded_sample_within_first_dim_bounds (low high gaussDraw : List ℝ)
    (h : low.headI ≤ high.headI) :
    ∀ x ∈ boundedContinuousSample low high gaussDraw,
      low.headI ≤ x ∧ x ≤ high.headI := by
  intro x hx
  rcases List.mem_map.1 hx with ⟨g, _, rfl⟩
  have ht1 : Real.tanh g < 1 := tanhLtOne g
  have ht2 : -1 < Real.tanh g := negOneLtTanh g
  have hd : (0 : ℝ) ≤ high.headI - low.headI := by linarith
  constructor
  · nlinarith [mul_nonneg (by linarith : (0 : ℝ) ≤ 1 + Real.tanh g) hd]
  · nlinarith [mul_nonneg (by linarith : (0 : ℝ) ≤ 1 - Real.tanh g) hd]

theorem bounded_sample_within_first_dim_bounds_witness :
    ([(-2 : ℝ), -2] : List ℝ).headI ≤ ([(2 : ℝ), 2] : List ℝ).headI ∧
    ∀ x ∈ boundedContinuousSample [-2, -2] [2, 2] [0, 1],
      ([(-2 : ℝ), -2] : List ℝ).headI ≤ x ∧ x ≤ ([(2 : ℝ), 2] : List ℝ).headI :=
  ⟨by norm_num,
   bounded_sample_within_first_dim_bounds [-2, -2] [2, 2] [0, 1] (by norm_num)⟩

/-- C3 counterexample: at logits `[0, 0]` with the uniform noise stream
`[9/10, 2/10]`, the source's discrete sampler (a direct call to
`Categorical.sample()`, consuming one uniform draw through the inverse
CDF) returns action 1, while the Gumbel-max sampler the claim prescribes
(perturb each logit by `-log(-log(u_i))` and arg-max) returns action 0:
the discrete sample is NOT the Gumbel-max of the perturbed logits. -/
theorem discrete_sample_not_gumbel :
    generateSampleActionDiscrete [0, 0] [9/10, 2/10]
      ≠ gumbelMaxSample [0, 0] [9/10, 2/10] := by
  have hd : generateSampleActionDiscrete [0, 0] [9/10, 2/10] = 1 := by
    simp only [generateSampleActionDiscrete, categoricalSample, softmaxProbs, List.headI,
      List.map_cons, List.map_nil, Real.exp_zero, List.sum_cons, List.sum_nil]
    norm_num [invCDF]
  have hg : gumbelMaxSample [0, 0] [9/10, 2/10] = 0 := by
    have k1 : Real.log (9/10 : ℝ) < 0 := Real.log_neg (by norm_num) (by norm_num)
    have k3 : Real.log (-Real.log (9/10 : ℝ)) ≤ Real.log (-Real.log (2/10 : ℝ)) :=
      Real.log_le_log (by linarith)
        (by
          have k2 : Real.log (2/10 : ℝ) ≤ Real.log (9/10 : ℝ) :=
            Real.log_le_log (by norm_num) (by norm_num)
          linarith)
    have hcond : ¬ ((0 : ℝ) + -Real.log (-Real.log (9/10 : ℝ))
        < 0 + -Real.log (-Real.log (2/10 : ℝ))) := by
      push_neg
      linarith
    simp only [gumbelMaxSample, List.zipWith_cons_cons, List.zipWith_nil_right, List.zipWith,
      argmaxIdx, argmaxAux]
    rw [if_neg hcond]
  rw [hd, hg]
  norm_num

/-- C3 amended: the discrete `sample()` draws directly from the
categorical distribution (one uniform draw walked through the inverse CDF
of the softmax probabilities, no Gumbel perturbation and no arg-max), and
always returns a valid action index. -/
theorem discrete_sample_direct_categorical (logits noise : List ℝ)
    (h : logits ≠ []) :
    generateSampleActionDiscrete logits noise
        = invCDF (softmaxProbs logits) noise.headI ∧
    generateSampleActionDiscrete logits noise < logits.length := by
  refine ⟨rfl, ?_⟩
  have hne : softmaxProbs logits ≠ [] := by
    simp only [softmaxProbs, ne_eq, List.map_eq_nil_iff]
    exact h
  have hlt := invCDFLtLength (softmaxProbs logits) noise.headI hne
  simpa [generateSampleActionDiscrete, categoricalSample, softmaxProbs] using hlt

theorem discrete_sample_direct_categorical_witness :
    (([(0 : ℝ)] : List ℝ) ≠ []) ∧
    (generateSampleActionDiscrete [0] []
        = invCDF (softmaxProbs [0]) ([] : List ℝ).headI ∧
     generateSampleActionDiscrete [0] [] < ([(0 : ℝ)] : List ℝ).length) :=
  ⟨by simp, discrete_sample_direct_categorical [0] [] (by simp)⟩

/-- C6: for every continuous-variant weight configuration and batch entry,
the `log_prob` used in the loss equals the log-density of the pre-squash
diagonal Gaussian evaluated at the fed action, the entropy equals the
pre-squash Gaussian entropy, and the tanh-Jacobian correction (which would
change the value, as the third conjunct shows at a concrete point) is not
applied. -/
theorem continuous_log_prob_pre_squash (w : ContinuousW) (st : TrunkStats)
    (obs act : List ℝ)
    (hlen1 : act.length = (contStdDev w).length)
    (hlen2 : (actMean w st obs).length = (contStdDev w).length) :
    logProbNodeCont w st obs act
        = preSquashGaussianLogPdf (actMean w st obs) (contStdDev w) act ∧
    entropyNodeCont w = preSquashGaussianEntropy (contStdDev w) ∧
    squashCorrectedLogPdf [0] [1] [1] ≠ preSquashGaussianLogPdf [0] [1] [1] := by
  refine ⟨?_, ?_, ?_⟩
  · have e1 : (act.zip ((actMean w st obs).zip (contStdDev w))).map
        (fun t => -(((t.1 - t.2.1) / t.2.2) ^ 2) / 2 - Real.log t.2.2)
        = (act.zip ((actMean w st obs).zip (contStdDev w))).map
        (fun t => -((t.1 - t.2.1) ^ 2) / (2 * t.2.2 ^ 2) - Real.log t.2.2) := by
      apply List.map_congr_left
      intro t _
      rw [div_pow]
      ring
    rw [logProbNodeCont, mvnDiagLogProb, e1,
      listSumMapSub (act.zip ((actMean w st obs).zip (contStdDev w)))
        (fun t : ℝ × ℝ × ℝ => -((t.1 - t.2.1) ^ 2) / (2 * t.2.2 ^ 2))
        (fun t : ℝ × ℝ × ℝ => Real.log t.2.2),
      preSquashGaussianLogPdf]
    have e2 : (act.zip ((actMean w st obs).zip (contStdDev w))).map
        (fun t => Real.log t.2.2) = (contStdDev w).map Real.log := by
      rw [show (fun t : ℝ × ℝ × ℝ => Real.log t.2.2)
          = Real.log ∘ (fun t : ℝ × ℝ × ℝ => t.2.2) from rfl, ← List.map_map,
        zip3MapThird act _ _ hlen1 hlen2]
    rw [e2]
  · rw [entropyNodeCont, mvnDiagEntropy, preSquashGaussianEntropy]
    rw [listSumMapConstAdd (contStdDev w) (1 / 2 + Real.log (2 * Real.pi) / 2) Real.log]
    ring
  · have ht0 : 0 < Real.tanh 1 := by
      rw [Real.tanh_eq_sinh_div_cosh]
      exact div_pos (Real.sinh_pos_iff.mpr one_pos) (Real.cosh_pos 1)
    have ht1 : Real.tanh 1 < 1 := tanhLtOne 1
    have hlt : Real.log (1 - Real.tanh 1 ^ 2) < 0 :=
      Real.log_neg (by nlinarith) (by nlinarith)
    rw [squashCorrectedLogPdf]
    intro hEq
    have hzero : (([1] : List ℝ).map (fun gi => Real.log (1 - Real.tanh gi ^ 2))).sum = 0 := by
      linarith
    simp only [List.map_cons, List.map_nil, List.sum_cons, List.sum_nil, add_zero] at hzero
    linarith

theorem continuous_log_prob_pre_squash_witness :
    (([(0 : ℝ)] : List ℝ).length = (contStdDev exampleContW).length ∧
     (actMean exampleContW exampleStats [1]).length = (contStdDev exampleContW).length) ∧
    (logProbNodeCont exampleContW exampleStats [1] [0]
        = preSquashGaussianLogPdf (actMean exampleContW exampleStats [1])
            (contStdDev exampleContW) [0] ∧
     entropyNodeCont exampleContW = preSquashGaussianEntropy (contStdDev exampleContW) ∧
     squashCorrectedLogPdf [0] [1] [1] ≠ preSquashGaussianLogPdf [0] [1] [1]) :=
  ⟨⟨rfl, rfl⟩,
   continuous_log_prob_pre_squash exampleContW exampleStats [1] [0] rfl rfl⟩

/-- C7 counterexample: the claim's clause "only `train` and `reset` mutate
PolicyParameters" is false, because `summarize` also fetches `train_op`:
at a concrete state the session run of `summarize`'s fetches changes the
variable state (the global step advances). -/
theorem summarize_also_mutates :
    sessionRun summarizeFetches (⟨1, 1⟩ : UpdateVals ℕ ℕ) ⟨0, 0, 0⟩
      ≠ (⟨0, 0, 0⟩ : TFVars ℕ ℕ) := by
  intro h
  have hgs := congrArg TFVars.globalStep h
  rw [sessionRunSummarizeEq] at hgs
  simp at hgs

/-- C7 amended: `actor`, `critic` and `step` execute only the dependency
closure of `sample_act` / `critic_pred`, which contains no update op, so
they leave weights, moving statistics and the global step exactly as they
were, and they feed `is_training=False`; the operations that do mutate
PolicyParameters are `train`, `summarize` (which also fetches `train_op`)
and `reset`. -/
theorem actor_critic_step_frame {W S : Type} (u : UpdateVals W S) (s : TFVars W S) :
    sessionRun actorFetches u s = s ∧
    sessionRun criticFetches u s = s ∧
    sessionRun stepFetches u s = s ∧
    sessionRun trainFetches u s = ⟨u.newWeights, u.newStats, s.globalStep + 1⟩ ∧
    sessionRun summarizeFetches u s = ⟨u.newWeights, u.newStats, s.globalStep + 1⟩ ∧
    sessionRun resetFetches u s = ⟨u.newWeights, u.newStats, 0⟩ ∧
    actorFeedIsTraining = false ∧ criticFeedIsTraining = false ∧
    stepFeedIsTraining = false :=
  ⟨sessionRunActorEq u s, sessionRunCriticEq u s, sessionRunStepEq u s,
   sessionRunTrainEq u s, sessionRunSummarizeEq u s, sessionRunResetEq u s,
   rfl, rfl, rfl⟩

/-- C8: `summarize` runs with `is_training=False` (an inference-mode
pass), fetches the merged diagnostic summaries, and as a side effect also
fetches `train_op`, so the parameter update executes: the weights and
moving statistics take the update's values and the global step counter
advances by one. -/
theorem summarize_applies_update_side_effect {W S : Type}
    (u : UpdateVals W S) (s : TFVars W S) :
    sessionRun summarizeFetches u s = ⟨u.newWeights, u.newStats, s.globalStep + 1⟩ ∧
    (sessionRun summarizeFetches u s).globalStep = s.globalStep + 1 ∧
    NodeId.summariesN ∈ summarizeFetches ∧
    summarizeFeedIsTraining = false :=
  ⟨sessionRunSummarizeEq u s, by rw [sessionRunSummarizeEq],
   by simp [summarizeFetches], rfl⟩

/-- C9: after `reset()`, two successive `actor` calls on identical
observation batches with the same sampling noise and no intervening
`train` call return identical action batches (the first call executes no
write, so the second call computes the same function of the same state),
and `actor` feeds `is_training=False`. -/
theorem actor_deterministic_after_reset (w0 : DiscreteW) (st0 : TrunkStats)
    (sAny : TFVars DiscreteW TrunkStats) (obsBatch : List (List ℝ)) (noise : List ℝ) :
    (actorCall (actorCall (resetCall w0 st0 sAny) obsBatch noise).1 obsBatch noise).2
      = (actorCall (resetCall w0 st0 sAny) obsBatch noise).2 ∧
    actorFeedIsTraining = false := by
  constructor
  · have h1 : (actorCall (resetCall w0 st0 sAny) obsBatch noise).1
        = resetCall w0 st0 sAny := by
      simp only [actorCall]
      exact sessionRunActorEq _ _
    rw [h1]
  · rfl

end A2C
